import Mathlib

/-!
Verification of the k-diffusion training script (src/train.py) against its
natural-language specification. Components of the repository that live in the
k_diffusion package rather than in src/train.py (the Karras noise schedule,
the linear multistep sampler, the EMA warmup schedule, the inverse LR
schedule, and the gradient noise scale estimator) are modelled from the
specification text, as noted on each definition.
-/

namespace KDiffusion

/-- Modelled from the spec: the EMA warmup decay of `k_diffusion.utils.EMAWarmup`
(not under src/). The state is a single step counter with fixed
(power, max_value) configuration, and
`decay(step) = min(max_value, (1 - 1/(step + 1))^power)`. -/
noncomputable def emaDecay (power max_value : ℝ) (step : ℕ) : ℝ :=
  min max_value ((1 - 1 / ((step : ℝ) + 1)) ^ power)

/-- Modelled from the spec: the `k_diffusion.utils.InverseLR` learning rate
multiplier (not under src/):
`multiplier(step) = (1 - warmup^(step+1)) * (1 + step/inv_gamma)^(-power)`. -/
noncomputable def lrMultiplier (inv_gamma power warmup : ℝ) (step : ℕ) : ℝ :=
  (1 - warmup ^ (step + 1)) * (1 + (step : ℝ) / inv_gamma) ^ (-power)

/-- The running state of the gradient noise scale estimator: the two
exponentially smoothed scalars (squared gradient norm estimate and gradient
covariance trace estimate). -/
structure GNSState where
  g2_smoothed : ℚ
  s_smoothed : ℚ
  deriving DecidableEq

/-- Modelled from the spec: `k_diffusion.gns.GradientNoiseScale.update` (not
under src/). Given per-step readings (small-batch squared norm, large-batch
squared norm, small batch size, large batch size), form
`G2_est = (large_size*large_norm - small_size*small_norm) / (large_size - small_size)` and
`S_est = (small_norm - large_norm) / (1/small_size - 1/large_size)` and fold
each into the running state with an exponential moving average of decay
`beta`; the degenerate case `large_size == small_size` is a no-op. -/
def gnsUpdate (beta : ℚ) (st : GNSState) (small_norm large_norm : ℚ)
    (small_size large_size : ℕ) : GNSState :=
  if large_size = small_size then st
  else
    let g2_est : ℚ :=
      ((large_size : ℚ) * large_norm - (small_size : ℚ) * small_norm) /
        ((large_size : ℚ) - (small_size : ℚ))
    let s_est : ℚ :=
      (small_norm - large_norm) / (1 / (small_size : ℚ) - 1 / (large_size : ℚ))
    { g2_smoothed := beta * st.g2_smoothed + (1 - beta) * g2_est,
      s_smoothed := beta * st.s_smoothed + (1 - beta) * s_est }

/-- Modelled from the spec: the i-th Karras sigma,
`sigma_i = (sigma_max^(1/rho) + i/(n-1) * (sigma_min^(1/rho) - sigma_max^(1/rho)))^rho`. -/
noncomputable def karrasSigma (n : ℕ) (sigma_min sigma_max rho : ℝ) (i : ℕ) : ℝ :=
  (sigma_max ^ (1 / rho) +
    (i : ℝ) / ((n : ℝ) - 1) * (sigma_min ^ (1 / rho) - sigma_max ^ (1 / rho))) ^ rho

/-- Modelled from the spec: `k_diffusion.sampling.get_sigmas_karras` (not under
src/): the ordered sequence of `n` sigmas `sigma_0 .. sigma_(n-1)` followed by
an appended 0, with the single-step case defined as `[sigma_max, 0]`. -/
noncomputable def get_sigmas_karras (n : ℕ) (sigma_min sigma_max rho : ℝ) : List ℝ :=
  if n = 1 then [sigma_max, 0]
  else ((List.range n).map (karrasSigma n sigma_min sigma_max rho)) ++ [0]

/-- Modelled from the spec: the probability flow ODE derivative
`dx/dsigma = (x - D(x, sigma)) / sigma` used by the sampler. -/
noncomputable def to_d (x sigma denoised : ℝ) : ℝ := (x - denoised) / sigma

/-- Modelled from the spec: the loop body of the linear multistep sampler.
Each entry of the index list carries the step index and the current sigma; the
loop evaluates the denoiser once, appends the derivative to the history buffer
`ds` (dropping the oldest entry beyond `order`), and advances `x` by the
weighted combination of the buffered derivatives, the weights being the
multistep coefficients for the current effective order `min (i+1) order`
(abstracted as the function `coeff`, taking the step index and the
coefficient index). -/
noncomputable def lmsLoop (coeff : ℕ → ℕ → ℝ) (model : ℝ → ℝ → ℝ) (order : ℕ) :
    List (ℕ × ℝ) → ℝ → List ℝ → ℝ
  | [], x, _ => x
  | (i, sigma) :: rest, x, ds =>
    let denoised := model x sigma
    let d := to_d x sigma denoised
    let ds1 := ds ++ [d]
    let ds2 := if order < ds1.length then ds1.tail else ds1
    let cur_order := Min.min (i + 1) order
    let xn := x + (((List.range cur_order).map
      (fun j => coeff i j * ds2.reverse.getD j 0)).sum)
    lmsLoop coeff model order rest xn ds2

/-- Modelled from the spec: `k_diffusion.sampling.sample_lms` (not under src/),
integrating the probability flow ODE over the schedule `sigmas` with a linear
multistep method; it consumes the schedule positions `0 .. len - 2`, each
paired with its sigma, starting with an empty derivative history. -/
noncomputable def sample_lms (coeff : ℕ → ℕ → ℝ) (model : ℝ → ℝ → ℝ)
    (x : ℝ) (sigmas : List ℝ) (order : ℕ) : ℝ :=
  lmsLoop coeff model order sigmas.dropLast.enum x []

/-- The periodic actions of the training loop. -/
inductive Event
  | demo
  | evaluate
  | save
  deriving DecidableEq

/-- The Python `%` operator raises ZeroDivisionError on a zero modulus; this is
modelled as an `Except` value. -/
def checkedMod (a b : ℕ) : Except Unit ℕ :=
  if b = 0 then Except.error () else Except.ok (a % b)

/-- Translated from src/train.py lines 220-227: the three periodic trigger
checks run in order demo, evaluate, save; the demo check is
`step % demo_every == 0` with no zero guard, the evaluate check is
`step > 0 and evaluate_every > 0 and step % evaluate_every == 0` with Python
short-circuit evaluation, and the save check is
`step > 0 and step % save_every == 0` with no zero guard on `save_every`. -/
def stepTriggers (demo_every evaluate_every save_every step : ℕ) :
    Except Unit (List Event) :=
  match checkedMod step demo_every with
  | Except.error e => Except.error e
  | Except.ok dm =>
    let demoEvs := if dm = 0 then [Event.demo] else []
    let evalPart : Except Unit (List Event) :=
      if 0 < step then
        if 0 < evaluate_every then
          match checkedMod step evaluate_every with
          | Except.error e => Except.error e
          | Except.ok ev => Except.ok (if ev = 0 then [Event.evaluate] else [])
        else Except.ok []
      else Except.ok []
    match evalPart with
    | Except.error e => Except.error e
    | Except.ok evalEvs =>
      let savePart : Except Unit (List Event) :=
        if 0 < step then
          match checkedMod step save_every with
          | Except.error e => Except.error e
          | Except.ok sv => Except.ok (if sv = 0 then [Event.save] else [])
        else Except.ok []
      match savePart with
      | Except.error e => Except.error e
      | Except.ok saveEvs => Except.ok (demoEvs ++ evalEvs ++ saveEvs)

/-- The list of periodic events fired at a given step, in check order, when
no trigger check divides by zero. -/
def firedEvents (demo_every evaluate_every save_every step : ℕ) : List Event :=
  (if step % demo_every = 0 then [Event.demo] else []) ++
  (if 0 < step then
    (if 0 < evaluate_every then
      (if step % evaluate_every = 0 then [Event.evaluate] else [])
     else [])
   else []) ++
  (if 0 < step then (if step % save_every = 0 then [Event.save] else [])
   else [])

/-- The observable actions of one pass of the training loop body, in program
order. -/
inductive Action
  | gnsUpd
  | optStep
  | schedStep
  | emaUpdate
  | emaSchedStep
  | demo
  | evaluate
  | save
  deriving DecidableEq

/-- The action that a fired periodic event performs. -/
def Event.toAction : Event → Action
  | Event.demo => Action.demo
  | Event.evaluate => Action.evaluate
  | Event.save => Action.save

/-- Whether an action is one of the periodic demo, evaluate, save actions. -/
def Action.isPeriodic : Action → Bool
  | Action.demo => true
  | Action.evaluate => true
  | Action.save => true
  | _ => false

/-- The fixed run configuration of the training script: the three periodic
intervals, the gns flag, the EMA warmup configuration, the GNS smoothing
constant, and the optimizer update on the model parameters (opaque, the
backbone and Adam are external collaborators). -/
structure Config where
  demo_every : ℕ
  evaluate_every : ℕ
  save_every : ℕ
  use_gns : Bool
  gns_beta : ℚ
  ema_power : ℝ
  ema_max_value : ℝ
  optApply : ℝ → ℝ

/-- The mutable state of the training loop: model parameters, the EMA shadow
copy, opaque optimizer state, the two schedule counters, the optional GNS
accumulator, and the epoch and step counters. -/
structure TrainState where
  model : ℝ
  model_ema : ℝ
  opt : ℕ
  sched_count : ℕ
  ema_count : ℕ
  gns : Option GNSState
  epoch : ℕ
  step : ℕ

/-- Translated from src/train.py lines 171-180: the checkpoint bundle, holding
exactly the fields model, model_ema, opt, sched, ema_sched, epoch, step and
gns_stats. -/
structure Checkpoint where
  model : ℝ
  model_ema : ℝ
  opt : ℕ
  sched : ℕ
  ema_sched : ℕ
  epoch : ℕ
  step : ℕ
  gns_stats : Option GNSState

/-- Translated from src/train.py lines 91-113: initial training state. Without
a resume checkpoint, counters start at zero, the EMA shadow is a copy of the
model, and a fresh GNS accumulator exists exactly when the gns flag is set.
With a resume checkpoint, the model, EMA shadow, optimizer and both schedule
states load verbatim, the epoch and step counters are both set one past the
saved values, and the GNS accumulator loads when the gns flag is set and the
checkpoint holds one. -/
def initState (cfg : Config) (model0 : ℝ) (resume : Option Checkpoint) : TrainState :=
  match resume with
  | none =>
    { model := model0, model_ema := model0, opt := 0, sched_count := 0,
      ema_count := 0,
      gns := if cfg.use_gns then some ⟨0, 0⟩ else none,
      epoch := 0, step := 0 }
  | some ck =>
    { model := ck.model, model_ema := ck.model_ema, opt := ck.opt,
      sched_count := ck.sched, ema_count := ck.ema_sched,
      gns := if cfg.use_gns then
          (match ck.gns_stats with
           | some g => some g
           | none => some ⟨0, 0⟩)
        else none,
      epoch := ck.epoch + 1, step := ck.step + 1 }

/-- Translated from src/train.py lines 166-181: the checkpoint written at a
save point. -/
def saveCheckpoint (s : TrainState) : Checkpoint :=
  { model := s.model, model_ema := s.model_ema, opt := s.opt,
    sched := s.sched_count, ema_sched := s.ema_count,
    epoch := s.epoch, step := s.step, gns_stats := s.gns }

/-- Translated from src/train.py lines 186-229: one pass of the inner training
loop body. After the backward pass, the GNS accumulator is updated when the
gns flag is set (the large batch is the small batch replicated over the
world), then the optimizer applies its update, the LR schedule steps, the EMA
decay is read from the warmup schedule, the EMA shadow is updated with it
(`shadow = decay*shadow + (1-decay)*live`, modelled from the spec for
`k_diffusion.utils.ema_update`, not under src/), the warmup schedule counter
advances, the periodic trigger checks run, and the step counter increments.
A zero modulus in a trigger check aborts the pass with an error, as in
Python; the epoch counter is untouched. The returned trace lists the
performed actions in program order. -/
noncomputable def trainStep (cfg : Config) (small_norm large_norm : ℚ)
    (batch_size world_size : ℕ) (s : TrainState) :
    Except Unit (TrainState × List Action) :=
  let gnsNew : Option GNSState :=
    if cfg.use_gns then
      s.gns.map (fun g => gnsUpdate cfg.gns_beta g small_norm large_norm
        batch_size (batch_size * world_size))
    else s.gns
  let gnsTrace : List Action := if cfg.use_gns then [Action.gnsUpd] else []
  let modelNew := cfg.optApply s.model
  let decay := emaDecay cfg.ema_power cfg.ema_max_value s.ema_count
  let emaNew := decay * s.model_ema + (1 - decay) * modelNew
  match stepTriggers cfg.demo_every cfg.evaluate_every cfg.save_every s.step with
  | Except.error e => Except.error e
  | Except.ok evs =>
    Except.ok
      ({ model := modelNew, model_ema := emaNew, opt := s.opt + 1,
         sched_count := s.sched_count + 1, ema_count := s.ema_count + 1,
         gns := gnsNew, epoch := s.epoch, step := s.step + 1 },
       gnsTrace ++ [Action.optStep, Action.schedStep, Action.emaUpdate,
         Action.emaSchedStep] ++ evs.map Event.toAction)

/-- Translated from src/train.py line 230: the epoch counter increments exactly
at the end of a full pass over the dataset. -/
def endOfPass (s : TrainState) : TrainState := { s with epoch := s.epoch + 1 }

/-- A row of the metrics log: either the header line or one evaluation row. -/
inductive MetricsRow
  | header
  | eval (step : ℕ) (fid kid : ℝ)

/-- Translated from src/train.py lines 119-125: when the metrics file already
exists it is opened for append and its contents are kept; otherwise it is
created and the header row is written. -/
def openMetricsLog (existing : Option (List MetricsRow)) : List MetricsRow :=
  match existing with
  | some rows => rows
  | none => [MetricsRow.header]

/-- Translated from src/train.py lines 161-162: after computing FID and KID,
the main process appends exactly one row to the metrics log; any other
process writes nothing. -/
def evaluateLogRow (is_main : Bool) (log : List MetricsRow) (step : ℕ)
    (fid kid : ℝ) : List MetricsRow :=
  if is_main then log ++ [MetricsRow.eval step fid kid] else log

/-- A concrete run configuration with the default intervals of src/train.py. -/
noncomputable def cfg0 : Config :=
  { demo_every := 500, evaluate_every := 10000, save_every := 10000,
    use_gns := false, gns_beta := 9998 / 10000,
    ema_power := 3 / 4, ema_max_value := 999 / 1000,
    optApply := fun x => x }

/-- The concrete configuration cfg0 with the gns flag set. -/
noncomputable def cfg1 : Config :=
  { demo_every := 500, evaluate_every := 10000, save_every := 10000,
    use_gns := true, gns_beta := 9998 / 10000,
    ema_power := 3 / 4, ema_max_value := 999 / 1000,
    optApply := fun x => x }

/-- A concrete checkpoint with saved epoch 5 and saved step 100. -/
noncomputable def ckpt0 : Checkpoint :=
  { model := 0, model_ema := 0, opt := 7, sched := 100, ema_sched := 100,
    epoch := 5, step := 100, gns_stats := none }

/-- A concrete checkpoint holding a GNS accumulator state. -/
noncomputable def ckpt1 : Checkpoint :=
  { model := 0, model_ema := 0, opt := 7, sched := 100, ema_sched := 100,
    epoch := 5, step := 100, gns_stats := some ⟨1, 2⟩ }

/-- A concrete fresh training state. -/
noncomputable def st0 : TrainState :=
  { model := 0, model_ema := 0, opt := 0, sched_count := 0, ema_count := 0,
    gns := none, epoch := 0, step := 0 }

/-- C6: every GNS estimator update call in which the large batch size equals
the small batch size is a no-op: the running smoothed state is returned
unchanged, so nothing (in particular no NaN) enters the running state. -/
theorem gns_equal_sizes_noop (beta : ℚ) (st : GNSState)
    (small_norm large_norm : ℚ) (sz : ℕ) :
    gnsUpdate beta st small_norm large_norm sz sz = st := by
  simp [gnsUpdate]

/-- C9: the metrics log is append-only: the header row is written only when
the file does not already exist, an existing file is opened for append with
its contents kept verbatim, and per evaluation event exactly one row is
appended by the main process while any other process appends nothing. -/
theorem metrics_log_append_only :
    openMetricsLog none = [MetricsRow.header] ∧
    (∀ rows, openMetricsLog (some rows) = rows) ∧
    (∀ log step fid kid, evaluateLogRow true log step fid kid =
      log ++ [MetricsRow.eval step fid kid]) ∧
    (∀ log step fid kid, evaluateLogRow false log step fid kid = log) :=
  ⟨rfl, fun _ => rfl, fun _ _ _ _ => rfl, fun _ _ _ _ => rfl⟩

/-- C1 counterexample: resuming from a checkpoint whose saved epoch counter is
5 yields epoch counter 6, so the epoch counter is not restored unchanged from
the saved value. -/
theorem resume_epoch_counterexample :
    ckpt0.epoch = 5 ∧ (initState cfg0 0 (some ckpt0)).epoch = 6 ∧
    (initState cfg0 0 (some ckpt0)).epoch ≠ ckpt0.epoch :=
  ⟨rfl, rfl, by decide⟩

/-- C1 (amended): when resuming from a checkpoint, training continues from
step = saved step + 1 while the epoch counter is set to saved epoch + 1, and
all sub-component states (model, EMA shadow, optimizer, LR schedule, EMA
schedule, and, when the gns flag is set and the checkpoint holds one, the GNS
accumulator) are restored verbatim from the checkpoint; within a dataset pass
a training step never changes the epoch counter, which increments only at an
end-of-dataset pass. -/
theorem resume_semantics (cfg : Config) (m0 : ℝ) (ck : Checkpoint) :
    (initState cfg m0 (some ck)).step = ck.step + 1 ∧
    (initState cfg m0 (some ck)).epoch = ck.epoch + 1 ∧
    (initState cfg m0 (some ck)).model = ck.model ∧
    (initState cfg m0 (some ck)).model_ema = ck.model_ema ∧
    (initState cfg m0 (some ck)).opt = ck.opt ∧
    (initState cfg m0 (some ck)).sched_count = ck.sched ∧
    (initState cfg m0 (some ck)).ema_count = ck.ema_sched ∧
    (cfg.use_gns = true → ∀ g, ck.gns_stats = some g →
      (initState cfg m0 (some ck)).gns = some g) ∧
    (∀ sn ln bs ws s s2 tr, trainStep cfg sn ln bs ws s = Except.ok (s2, tr) →
      s2.epoch = s.epoch ∧ s2.step = s.step + 1) ∧
    (∀ s, (endOfPass s).epoch = s.epoch + 1 ∧ (endOfPass s).step = s.step) := by
  refine ⟨rfl, rfl, rfl, rfl, rfl, rfl, rfl, ?_, ?_, fun s => ⟨rfl, rfl⟩⟩
  · intro hg g hck
    simp [initState, hg, hck]
  · intro sn ln bs ws s s2 tr h
    unfold trainStep at h
    rcases hev : stepTriggers cfg.demo_every cfg.evaluate_every cfg.save_every
        s.step with e | evs
    · rw [hev] at h; exact absurd h (by simp)
    · rw [hev] at h
      have h2 := Except.ok.inj h
      injection h2 with h3 h4
      subst h3
      exact ⟨rfl, rfl⟩

/-- C1 witness: the amended resume semantics at the concrete checkpoint ckpt1
with the gns flag set, its GNS accumulator loading verbatim. -/
theorem resume_semantics_witness :
    (initState cfg1 0 (some ckpt1)).step = ckpt1.step + 1 ∧
    (initState cfg1 0 (some ckpt1)).epoch = ckpt1.epoch + 1 ∧
    (initState cfg1 0 (some ckpt1)).gns = some ⟨1, 2⟩ :=
  ⟨(resume_semantics cfg1 0 ckpt1).1, (resume_semantics cfg1 0 ckpt1).2.1,
    (resume_semantics cfg1 0 ckpt1).2.2.2.2.2.2.2.1 rfl ⟨1, 2⟩ rfl⟩

/-- C4: the checkpoint written at a save point contains exactly the fields
model, model_ema, opt, sched, ema_sched, epoch, step and gns_stats taken from
the current training state, and a save followed by a load restores both
schedule counters verbatim (while step and epoch resume one past the saved
values), so every subsequent LR multiplier and EMA decay output is identical
to what the saved state would have produced. -/
theorem checkpoint_round_trip (cfg : Config) (m0 inv_gamma lr_power lr_warmup : ℝ)
    (s : TrainState) :
    saveCheckpoint s = ⟨s.model, s.model_ema, s.opt, s.sched_count, s.ema_count,
      s.epoch, s.step, s.gns⟩ ∧
    (initState cfg m0 (some (saveCheckpoint s))).sched_count = s.sched_count ∧
    (initState cfg m0 (some (saveCheckpoint s))).ema_count = s.ema_count ∧
    (initState cfg m0 (some (saveCheckpoint s))).step = s.step + 1 ∧
    (initState cfg m0 (some (saveCheckpoint s))).epoch = s.epoch + 1 ∧
    (∀ k, lrMultiplier inv_gamma lr_power lr_warmup
        ((initState cfg m0 (some (saveCheckpoint s))).sched_count + k) =
      lrMultiplier inv_gamma lr_power lr_warmup (s.sched_count + k)) ∧
    (∀ k, emaDecay cfg.ema_power cfg.ema_max_value
        ((initState cfg m0 (some (saveCheckpoint s))).ema_count + k) =
      emaDecay cfg.ema_power cfg.ema_max_value (s.ema_count + k)) :=
  ⟨rfl, rfl, rfl, rfl, rfl, fun _ => rfl, fun _ => rfl⟩

/-- C8: for every nonnegative power, the EMA warmup decay satisfies
`decay(step) = min(max_value, (1 - 1/(step + 1))^power)` for every step, is
monotone non-decreasing in the step, is bounded above by max_value, and with
max_value = 0.999 and power = 0.75 the decay at step 0 is exactly 0. -/
theorem ema_decay_spec (power max_value : ℝ) (hp : 0 ≤ power) :
    (∀ step : ℕ, emaDecay power max_value step =
      min max_value ((1 - 1 / ((step : ℝ) + 1)) ^ power)) ∧
    Monotone (fun step : ℕ => emaDecay power max_value step) ∧
    (∀ step : ℕ, emaDecay power max_value step ≤ max_value) ∧
    emaDecay (3 / 4) (999 / 1000) 0 = 0 := by
  refine ⟨fun _ => rfl, ?_, fun step => min_le_left _ _, ?_⟩
  · intro a b hab
    have ha0 : (0 : ℝ) ≤ (a : ℝ) := Nat.cast_nonneg a
    have ha1 : (0 : ℝ) < (a : ℝ) + 1 := by linarith
    have hab1 : (a : ℝ) + 1 ≤ (b : ℝ) + 1 := by
      have := (Nat.cast_le (α := ℝ)).mpr hab
      linarith
    apply min_le_min le_rfl
    apply Real.rpow_le_rpow ?_ ?_ hp
    · have h1 : 1 / ((a : ℝ) + 1) ≤ 1 := by
        rw [div_le_one ha1]; linarith
      linarith
    · have h2 : 1 / ((b : ℝ) + 1) ≤ 1 / ((a : ℝ) + 1) :=
        one_div_le_one_div_of_le ha1 hab1
      linarith
  · unfold emaDecay
    norm_num [Real.zero_rpow]

/-- C8 witness: the EMA warmup decay at the configuration of src/train.py,
power 3/4 and max_value 0.999, is monotone and is exactly 0 at step 0. -/
theorem ema_decay_witness :
    Monotone (fun step : ℕ => emaDecay (3 / 4) (999 / 1000) step) ∧
    emaDecay (3 / 4) (999 / 1000) 0 = 0 :=
  ⟨(ema_decay_spec (3 / 4) (999 / 1000) (by norm_num)).2.1,
    (ema_decay_spec (3 / 4) (999 / 1000) (by norm_num)).2.2.2⟩

/-- Helper: looking up any position of an all-zero list with default 0 gives
zero. -/
theorem getD_zero_of_all_zero (l : List ℝ) (h : ∀ d ∈ l, d = 0) (j : ℕ) :
    l.getD j 0 = 0 := by
  induction l generalizing j with
  | nil => simp
  | cons a t ih =>
    cases j with
    | zero => simpa using h a (List.mem_cons_self a t)
    | succ j => simpa using ih (fun d hd => h d (List.mem_cons_of_mem a hd)) j

/-- Helper: the sampler loop with the identity denoiser keeps the state fixed
whenever the incoming derivative history is all zero. -/
theorem lmsLoop_identity (coeff : ℕ → ℕ → ℝ) (order : ℕ) (l : List (ℕ × ℝ))
    (x : ℝ) (ds : List ℝ) (hds : ∀ d ∈ ds, d = 0) :
    lmsLoop coeff (fun y _ => y) order l x ds = x := by
  induction l generalizing x ds with
  | nil => rfl
  | cons p rest ih =>
    obtain ⟨i, sigma⟩ := p
    have hd : to_d x sigma x = 0 := by simp [to_d]
    have hds1 : ∀ d ∈ ds ++ [to_d x sigma x], d = 0 := by
      intro d hmem
      rcases List.mem_append.mp hmem with hmem | hmem
      · exact hds d hmem
      · simp at hmem; rw [hmem, hd]
    have hds2 : ∀ d ∈ (if order < (ds ++ [to_d x sigma x]).length
        then (ds ++ [to_d x sigma x]).tail else (ds ++ [to_d x sigma x])),
        d = 0 := by
      intro d hmem
      split at hmem
      · exact hds1 d (List.mem_of_mem_tail hmem)
      · exact hds1 d hmem
    have hsum : (((List.range (Min.min (i + 1) order)).map
        (fun j => coeff i j *
          (if order < (ds ++ [to_d x sigma x]).length
            then (ds ++ [to_d x sigma x]).tail
            else (ds ++ [to_d x sigma x])).reverse.getD j 0)).sum) = 0 := by
      apply List.sum_eq_zero
      intro y hy
      rcases List.mem_map.mp hy with ⟨j, hj, rfl⟩
      rw [getD_zero_of_all_zero _ (fun d hd2 =>
        hds2 d (List.mem_reverse.mp hd2)) j, mul_zero]
    show lmsLoop coeff (fun y _ => y) order ((i, sigma) :: rest) x ds = x
    simp only [lmsLoop]
    rw [hsum, add_zero]
    exact ih x _ hds2

/-- C7: for every initial state, every schedule, every coefficient choice and
every order, the linear multistep sampler with the identity denoiser produces
zero derivatives throughout, so the final output equals the initial state. -/
theorem sample_lms_identity (coeff : ℕ → ℕ → ℝ) (x : ℝ) (sigmas : List ℝ)
    (order : ℕ) : sample_lms coeff (fun y _ => y) x sigmas order = x :=
  lmsLoop_identity coeff order sigmas.dropLast.enum x [] (by simp)

/-- Helper: with nonzero demo and save intervals the trigger checks succeed
and produce the fired events in program order. -/
theorem stepTriggers_ok (de ee se st : ℕ) (hd : de ≠ 0) (hs : se ≠ 0) :
    stepTriggers de ee se st = Except.ok (firedEvents de ee se st) := by
  unfold stepTriggers checkedMod firedEvents
  rw [if_neg hd]
  by_cases h1 : 0 < st
  · by_cases h2 : 0 < ee
    · have he : ee ≠ 0 := Nat.pos_iff_ne_zero.mp h2
      simp [h1, h2, he, hs]
    · simp [h1, h2, hs]
  · simp [h1]

/-- C10: the periodic trigger checks guard neither demo_every nor save_every
against zero: with demo_every = 0 the check at step 0 (the first iteration of
a fresh run) divides by zero; with save_every = 0 the check at every step
greater than 0 divides by zero; evaluate_every = 0 alone is tolerated and
merely disables evaluation. -/
theorem trigger_zero_interval_guards :
    (∀ ee se, stepTriggers 0 ee se 0 = Except.error ()) ∧
    (∀ de ee st, de ≠ 0 → 0 < st → stepTriggers de ee 0 st = Except.error ()) ∧
    (∀ de se st, de ≠ 0 → se ≠ 0 → ∃ evs,
      stepTriggers de 0 se st = Except.ok evs ∧ Event.evaluate ∉ evs) := by
  refine ⟨fun ee se => rfl, ?_, ?_⟩
  · intro de ee st hd hst
    unfold stepTriggers checkedMod
    rw [if_neg hd]
    by_cases h2 : 0 < ee
    · have he : ee ≠ 0 := Nat.pos_iff_ne_zero.mp h2
      simp [hst, h2, he]
    · simp [hst, h2]
  · intro de se st hd hs
    refine ⟨_, stepTriggers_ok de 0 se st hd hs, ?_⟩
    intro hmem
    unfold firedEvents at hmem
    split_ifs at hmem <;> simp_all

/-- C10 witness: with demo_every = 0 the step 0 check errors, with
save_every = 0 the check at step 5 errors, and with evaluate_every = 0 the
checks at step 5 succeed without firing an evaluation. -/
theorem trigger_zero_witness :
    stepTriggers 0 10000 10000 0 = Except.error () ∧
    stepTriggers 500 10000 0 5 = Except.error () ∧
    (∃ evs, stepTriggers 500 0 10000 5 = Except.ok evs ∧
      Event.evaluate ∉ evs) :=
  ⟨trigger_zero_interval_guards.1 10000 10000,
   trigger_zero_interval_guards.2.1 500 10000 5 (by decide) (by decide),
   trigger_zero_interval_guards.2.2 500 10000 5 (by decide) (by decide)⟩

/-- C2: in every training step with nonzero demo and save intervals, the loop
body succeeds and its action trace fires the periodic actions independently
under exactly the stated conditions, each at most once, all after the
optimizer step, and in the order demo, evaluate, save. -/
theorem periodic_actions_spec (cfg : Config) (sn ln : ℚ) (bs ws : ℕ)
    (s : TrainState) (hd : cfg.demo_every ≠ 0) (hs : cfg.save_every ≠ 0) :
    ∃ s2 tr, trainStep cfg sn ln bs ws s = Except.ok (s2, tr) ∧
      (Action.demo ∈ tr ↔ s.step % cfg.demo_every = 0) ∧
      (Action.evaluate ∈ tr ↔ 0 < s.step ∧ 0 < cfg.evaluate_every ∧
        s.step % cfg.evaluate_every = 0) ∧
      (Action.save ∈ tr ↔ 0 < s.step ∧ s.step % cfg.save_every = 0) ∧
      List.Sublist (tr.filter Action.isPeriodic)
        [Action.demo, Action.evaluate, Action.save] ∧
      (∃ pre post, tr = pre ++ post ∧ Action.optStep ∈ pre ∧
        ∀ a ∈ pre, a.isPeriodic = false) := by
  unfold trainStep
  rw [stepTriggers_ok cfg.demo_every cfg.evaluate_every cfg.save_every s.step
    hd hs]
  refine ⟨_, _, rfl, ?_, ?_, ?_, ?_,
    ⟨(if cfg.use_gns then [Action.gnsUpd] else []) ++ [Action.optStep,
        Action.schedStep, Action.emaUpdate, Action.emaSchedStep],
      List.map Event.toAction (firedEvents cfg.demo_every cfg.evaluate_every
        cfg.save_every s.step),
      by simp, by split <;> simp, ?_⟩⟩
  · unfold firedEvents
    by_cases hg : cfg.use_gns <;>
      split_ifs <;> simp_all [Event.toAction]
  · unfold firedEvents
    by_cases hg : cfg.use_gns <;>
      split_ifs <;> simp_all [Event.toAction]
  · unfold firedEvents
    by_cases hg : cfg.use_gns <;>
      split_ifs <;> simp_all [Event.toAction]
  · unfold firedEvents
    by_cases hg : cfg.use_gns <;>
      split_ifs <;>
        simp_all [Event.toAction, Action.isPeriodic, List.filter]
  · intro a ha
    have hcase : a = Action.gnsUpd ∨ a = Action.optStep ∨
        a = Action.schedStep ∨ a = Action.emaUpdate ∨
        a = Action.emaSchedStep := by
      rw [List.mem_append] at ha
      rcases ha with ha | ha
      · left
        revert ha; split <;> simp
      · simp at ha
        tauto
    rcases hcase with rfl | rfl | rfl | rfl | rfl <;> rfl

/-- C2 witness: the periodic action conditions at the default configuration
and a fresh state, where only the demo action fires at step 0. -/
theorem periodic_actions_witness :
    ∃ s2 tr, trainStep cfg0 0 0 64 1 st0 = Except.ok (s2, tr) ∧
      (Action.demo ∈ tr ↔ st0.step % cfg0.demo_every = 0) ∧
      (Action.evaluate ∈ tr ↔ 0 < st0.step ∧ 0 < cfg0.evaluate_every ∧
        st0.step % cfg0.evaluate_every = 0) ∧
      (Action.save ∈ tr ↔ 0 < st0.step ∧ st0.step % cfg0.save_every = 0) ∧
      List.Sublist (tr.filter Action.isPeriodic)
        [Action.demo, Action.evaluate, Action.save] ∧
      (∃ pre post, tr = pre ++ post ∧ Action.optStep ∈ pre ∧
        ∀ a ∈ pre, a.isPeriodic = false) :=
  periodic_actions_spec cfg0 0 0 64 1 st0 (by decide) (by decide)

/-- C3: in every training step with nonzero demo and save intervals, the EMA
update action occurs exactly once in the trace, after the optimizer step; the
shadow parameters are updated with the decay value taken from the warmup
schedule at its counter before advancing, applied to the optimizer-updated
model parameters, and the schedule counter advances exactly once. -/
theorem ema_update_once_per_step (cfg : Config) (sn ln : ℚ) (bs ws : ℕ)
    (s : TrainState) (hd : cfg.demo_every ≠ 0) (hs : cfg.save_every ≠ 0) :
    ∃ s2 tr, trainStep cfg sn ln bs ws s = Except.ok (s2, tr) ∧
      tr.count Action.emaUpdate = 1 ∧
      (∃ pre post, tr = pre ++ Action.emaUpdate :: post ∧
        Action.optStep ∈ pre) ∧
      s2.model_ema = emaDecay cfg.ema_power cfg.ema_max_value s.ema_count *
          s.model_ema +
        (1 - emaDecay cfg.ema_power cfg.ema_max_value s.ema_count) *
          cfg.optApply s.model ∧
      s2.ema_count = s.ema_count + 1 := by
  unfold trainStep
  rw [stepTriggers_ok cfg.demo_every cfg.evaluate_every cfg.save_every s.step
    hd hs]
  refine ⟨_, _, rfl, ?_,
    ⟨(if cfg.use_gns then [Action.gnsUpd] else []) ++ [Action.optStep,
        Action.schedStep],
      Action.emaSchedStep :: List.map Event.toAction (firedEvents
        cfg.demo_every cfg.evaluate_every cfg.save_every s.step),
      by simp, by split <;> simp⟩, rfl, rfl⟩
  unfold firedEvents
  by_cases hg : cfg.use_gns <;> split_ifs <;>
    simp_all [Event.toAction, List.count_cons, List.count_append]

/-- C3 witness: the once-per-step EMA update property at the default
configuration and a fresh state. -/
theorem ema_update_once_witness :
    ∃ s2 tr, trainStep cfg0 0 0 64 1 st0 = Except.ok (s2, tr) ∧
      tr.count Action.emaUpdate = 1 ∧
      (∃ pre post, tr = pre ++ Action.emaUpdate :: post ∧
        Action.optStep ∈ pre) ∧
      s2.model_ema = emaDecay cfg0.ema_power cfg0.ema_max_value st0.ema_count *
          st0.model_ema +
        (1 - emaDecay cfg0.ema_power cfg0.ema_max_value st0.ema_count) *
          cfg0.optApply st0.model ∧
      s2.ema_count = st0.ema_count + 1 :=
  ema_update_once_per_step cfg0 0 0 64 1 st0 (by decide) (by decide)

/-- Helper: adjacent Karras sigmas strictly decrease for a schedule of at
least two steps with positive bounds, ordered bounds, and positive rho. -/
theorem karrasSigma_adjacent_lt (n : ℕ) (smin smax rho : ℝ) (h0 : 0 < smin)
    (h1 : smin < smax) (hrho : 0 < rho) (hn : 2 ≤ n) (m : ℕ)
    (hm : m + 1 < n) :
    karrasSigma n smin smax rho (m + 1) < karrasSigma n smin smax rho m := by
  have hA : (0:ℝ) < smax ^ (1/rho) := Real.rpow_pos_of_pos (h0.trans h1) _
  have hB : (0:ℝ) < smin ^ (1/rho) := Real.rpow_pos_of_pos h0 _
  have hBA : smin ^ (1/rho) < smax ^ (1/rho) :=
    Real.rpow_lt_rpow h0.le h1 (by positivity)
  have hd : (0:ℝ) < (n:ℝ) - 1 := by
    have h2 : (2:ℝ) ≤ (n:ℝ) := by exact_mod_cast hn
    linarith
  have hm2 : ((m:ℝ) + 1) ≤ (n:ℝ) - 1 := by
    have hmn : (m + 2 : ℕ) ≤ n := by omega
    have h3 : ((m:ℝ) + 2) ≤ (n:ℝ) := by exact_mod_cast hmn
    linarith
  unfold karrasSigma
  apply Real.rpow_lt_rpow ?_ ?_ hrho
  · push_cast
    have ht1 : ((m:ℝ)+1)/((n:ℝ)-1) ≤ 1 := by
      rw [div_le_one hd]; linarith
    have ht0 : (0:ℝ) ≤ ((m:ℝ)+1)/((n:ℝ)-1) := by positivity
    nlinarith [mul_nonneg (sub_nonneg.mpr ht1) hA.le, mul_nonneg ht0 hB.le]
  · push_cast
    have hstep : (m:ℝ) / ((n:ℝ)-1) < ((m:ℝ)+1) / ((n:ℝ)-1) :=
      (div_lt_div_iff_of_pos_right hd).mpr (by linarith)
    have hneg : smin ^ (1/rho) - smax ^ (1/rho) < 0 := by linarith
    have hmul := mul_lt_mul_of_neg_right hstep hneg
    linarith

/-- Helper: the Karras schedule is strictly decreasing for at least two steps
with positive ordered bounds and positive rho, down to and including the
appended 0. -/
theorem karras_chain (n : ℕ) (smin smax rho : ℝ) (h0 : 0 < smin)
    (h1 : smin < smax) (hrho : 0 < rho) (hn : 2 ≤ n) :
    List.Chain' (fun a b => b < a) (get_sigmas_karras n smin smax rho) := by
  have hne : n ≠ 1 := by omega
  unfold get_sigmas_karras
  rw [if_neg hne]
  obtain ⟨k, rfl⟩ : ∃ k, n = k + 2 := ⟨n - 2, by omega⟩
  rw [List.chain'_append]
  refine ⟨?_, List.chain'_singleton _, ?_⟩
  · rw [List.chain'_map]
    rw [List.chain'_range_succ]
    intro m hm
    exact karrasSigma_adjacent_lt (k+2) smin smax rho h0 h1 hrho (by omega)
      m (by omega)
  · intro x hx y hy
    rw [List.range_succ, List.map_append] at hx
    simp only [List.map_cons, List.map_nil] at hx
    rw [List.getLast?_concat] at hx
    simp only [Option.mem_def, Option.some.injEq] at hx
    simp only [List.head?_cons, Option.mem_def, Option.some.injEq] at hy
    subst hx
    subst hy
    have hbase : smax ^ (1/rho) + (((k+1 : ℕ)):ℝ)/((((k+2 : ℕ)):ℝ)-1) *
        (smin ^ (1/rho) - smax ^ (1/rho)) = smin ^ (1/rho) := by
      push_cast
      have hk : ((k:ℝ)+1) ≠ 0 := by positivity
      have h21 : ((k:ℝ) + 2 - 1) = (k:ℝ) + 1 := by ring
      rw [h21, div_self hk]
      ring
    show 0 < karrasSigma (k+2) smin smax rho (k+1)
    unfold karrasSigma
    rw [hbase]
    exact Real.rpow_pos_of_pos (Real.rpow_pos_of_pos h0 _) _

/-- C5: the Karras schedule builder at (10, 0.01, 80, 7) returns a sequence
of length 11 (the 10 sigmas plus the appended 0) that is strictly decreasing,
has first element exactly 80 and last element exactly 0; and for a single
step the result is [sigma_max, 0] with no division by zero. -/
theorem karras_schedule_spec :
    (get_sigmas_karras 10 (1/100) 80 7).length = 11 ∧
    List.Chain' (fun a b => b < a) (get_sigmas_karras 10 (1/100) 80 7) ∧
    (get_sigmas_karras 10 (1/100) 80 7).head? = some 80 ∧
    (get_sigmas_karras 10 (1/100) 80 7).getLast? = some 0 ∧
    (∀ smin smax rho : ℝ, get_sigmas_karras 1 smin smax rho = [smax, 0]) := by
  refine ⟨?_, ?_, ?_, ?_, fun smin smax rho => rfl⟩
  · unfold get_sigmas_karras
    rw [if_neg (by norm_num)]
    simp
  · exact karras_chain 10 (1/100) 80 7 (by norm_num) (by norm_num)
      (by norm_num) (by norm_num)
  · unfold get_sigmas_karras
    rw [if_neg (by norm_num)]
    rw [show List.range 10 = 0 :: [1,2,3,4,5,6,7,8,9] from rfl, List.map_cons]
    show some (karrasSigma 10 (1/100) 80 7 0) = some 80
    have h80 : karrasSigma 10 (1/100) 80 7 0 = 80 := by
      unfold karrasSigma
      norm_num
      rw [← Real.rpow_mul (by norm_num : (0:ℝ) ≤ 80)]
      norm_num
    rw [h80]
  · unfold get_sigmas_karras
    rw [if_neg (by norm_num)]
    rw [List.getLast?_concat]

end KDiffusion
